import Mathlib

/-!
# Verification of the sliding-window-protocol core (glycerine/go-sliding-window)

Shallow embedding of the Go sources into Lean 4, and proofs about the
receiver state machine (`RecvState.Start`'s receive loop), flow control
(`RecvState.UpdateFlowControl`), consumer delivery, `Session.Push`, the
network simulator (`SimNet.Send`), and the msgp-generated `Packet` codec
(`Packet.MarshalMsg` / `Packet.UnmarshalMsg`).

Machine integers (Go `int64`) are modelled as `Int`; the sequence numbers
of this protocol start at 0 and are documented to never wrap, so no
`% 2^64` reduction is applied in the state machine.  Go byte strings
(`string`, `[]byte`) are modelled as `List Nat` of byte values.  Go maps
(`map[Seqno]*Packet`) are modelled as association lists with
lookup/insert/remove helpers; claims about them are stated via lookup so
that no iteration order is assumed.  Fallible Go code (panics, returned
`error` values) is modelled with `Option`.
-/

namespace Swp

/-- Go byte strings (`string` and `[]byte` values): a list of byte values. -/
abbrev ByteStr := List Nat

/-- Model of a Go `time.Time` instant: Unix seconds and nanoseconds.
The msgp codec serializes exactly `t.Unix()` and `t.Nanosecond()` (after
`t.UTC()`), so an instant is all that is observable on the wire. -/
structure TimeT where
  sec : Int
  nsec : Int
  deriving DecidableEq, Repr, Inhabited

/-- `Packet` from swp.go / swp_gen.go: the unit transmitted between sender
and receiver, with the 18 fields of the msgp-generated codec. -/
structure Packet where
  From : ByteStr
  Dest : ByteStr
  ArrivedAtDestTm : TimeT
  DataSendTm : TimeT
  SeqNum : Int
  SeqRetry : Int
  AckNum : Int
  AckRetry : Int
  AckReplyTm : TimeT
  AckOnly : Bool
  KeepAlive : Bool
  AvailReaderBytesCap : Int
  AvailReaderMsgCap : Int
  FromRttEstNsec : Int
  FromRttSdNsec : Int
  FromRttN : Int
  CumulBytesTransmitted : Int
  Data : ByteStr
  deriving DecidableEq, Repr

/-- The Go zero value of `Packet` (`&Packet{...}` literals leave all
unnamed fields at their zero values). -/
def emptyPacket : Packet :=
  { From := [], Dest := [], ArrivedAtDestTm := ⟨0, 0⟩, DataSendTm := ⟨0, 0⟩
    SeqNum := 0, SeqRetry := 0, AckNum := 0, AckRetry := 0, AckReplyTm := ⟨0, 0⟩
    AckOnly := false, KeepAlive := false, AvailReaderBytesCap := 0
    AvailReaderMsgCap := 0, FromRttEstNsec := 0, FromRttSdNsec := 0
    FromRttN := 0, CumulBytesTransmitted := 0, Data := [] }

instance : Inhabited Packet := ⟨emptyPacket⟩

/-- `InWindow` from swp.go: true iff `seqno` is in `[mn, mx]`. -/
def InWindow (seqno mn mx : Int) : Bool :=
  if seqno < mn then false
  else if seqno > mx then false
  else true

/-- `RxqSlot` from swp.go: the receiver's sliding window element.  The Go
field `Pack *Packet` is a possibly-nil pointer, modelled as `Option`. -/
structure RxqSlot where
  Received : Bool
  Pack : Option Packet
  deriving DecidableEq, Repr

instance : Inhabited RxqSlot := ⟨⟨false, none⟩⟩

/-- `AckStatus` as constructed by the receive loop and handed to the local
sender on `snd.GotAck`.  The structure itself is declared in the sender
source (not under src/); its fields are taken from the construction site
in the receive loop. -/
structure AckStatus where
  OnlyUpdateFlowCtrl : Bool
  AckNum : Int
  AckCameWithPacket : Int
  AvailReaderBytesCap : Int
  AvailReaderMsgCap : Int
  deriving DecidableEq, Repr

/-- Modelled from the spec: the shared `FlowControl` object (`snd.FlowCt`,
declared in the sender source, which is not under src/).  Per §4.3 the
receiver pushes the two advertised-capacity values into it as an atomic
snapshot visible to the local sender; `UpdateFlow(name, net, msgCap,
bytesCap)` stores the message and byte capacities. -/
structure Flow where
  AvailReaderMsgCap : Int
  AvailReaderBytesCap : Int
  deriving DecidableEq, Repr

/-- Association-list model of the Go map `map[Seqno]*Packet`. -/
abbrev SeqnoMap := List (Int × Packet)

/-- Map lookup (`m[k]`). -/
def seqnoMapLookup (m : SeqnoMap) (k : Int) : Option Packet :=
  match m with
  | [] => none
  | (k1, v) :: rest => if k1 = k then some v else seqnoMapLookup rest k

/-- Map store (`m[k] = v`). -/
def seqnoMapInsert (m : SeqnoMap) (k : Int) (v : Packet) : SeqnoMap :=
  match m with
  | [] => [(k, v)]
  | (k1, v1) :: rest =>
      if k1 = k then (k, v) :: rest else (k1, v1) :: seqnoMapInsert rest k v

/-- Map delete (`delete(m, k)`). -/
def seqnoMapRemove (m : SeqnoMap) (k : Int) : SeqnoMap :=
  m.filter (fun kv => kv.1 ≠ k)

/-- `RecvState` from the receiver source: the receiver's sliding window
state.  Channels, the mutex, the network handle and the ASAP helper are
not part of the sequential data state; the shared flow-control object
reachable through `snd.FlowCt` is modelled inline as `flowCt`. -/
structure RecvState where
  Inbox : ByteStr
  NextFrameExpected : Int
  Rxq : List RxqSlot
  RecvWindowSize : Int
  RecvWindowSizeBytes : Int
  RecvHistory : List Packet
  DiscardCount : Int
  LastMsgConsumed : Int
  LargestSeqnoRcvd : Int
  MaxCumulBytesTrans : Int
  LastByteConsumed : Int
  LastAvailReaderBytesCap : Int
  LastAvailReaderMsgCap : Int
  RcvdButNotConsumed : SeqnoMap
  ReadyForDelivery : List Packet
  flowCt : Flow
  deriving DecidableEq, Repr

/-- `InOrderSeq` from the receiver source: ordered, gapless data as
delivered to the consumer application. -/
structure InOrderSeq where
  Seq : List Packet
  deriving DecidableEq, Repr

/-- `NewRecvState` from the receiver source: a fresh receiver for window
size `recvSz` messages / `recvSzBytes` bytes.  Fields not assigned in the
Go literal take their zero values. -/
def NewRecvState (recvSz recvSzBytes : Int) (inbox : ByteStr) : RecvState :=
  { Inbox := inbox
    NextFrameExpected := 0
    Rxq := List.replicate recvSz.toNat ⟨false, none⟩
    RecvWindowSize := recvSz
    RecvWindowSizeBytes := recvSzBytes
    RecvHistory := []
    DiscardCount := 0
    LastMsgConsumed := -1
    LargestSeqnoRcvd := -1
    MaxCumulBytesTrans := 0
    LastByteConsumed := -1
    LastAvailReaderBytesCap := 0
    LastAvailReaderMsgCap := 0
    RcvdButNotConsumed := []
    ReadyForDelivery := []
    flowCt := ⟨0, 0⟩ }

/-- The monotone-high-water-mark update at the top of the receive loop:

```go
if pack.SeqNum > r.LargestSeqnoRcvd {
    r.LargestSeqnoRcvd = pack.SeqNum
    if pack.CumulBytesTransmitted < r.MaxCumulBytesTrans { panic(...) }
    r.MaxCumulBytesTrans = pack.CumulBytesTransmitted
}
if pack.CumulBytesTransmitted > r.MaxCumulBytesTrans { panic(...) }
```

Returns the updated `(LargestSeqnoRcvd, MaxCumulBytesTrans)` pair, or
`none` when one of the two panics fires. -/
def updateLargestMark (largest maxCumul : Int) (pack : Packet) :
    Option (Int × Int) :=
  if pack.SeqNum > largest then
    if pack.CumulBytesTransmitted < maxCumul then none
    else some (pack.SeqNum, pack.CumulBytesTransmitted)
  else some (largest, maxCumul)

/-- The second panic check, applied to the (possibly updated) marks. -/
def updateCumulMarks (largest maxCumul : Int) (pack : Packet) :
    Option (Int × Int) :=
  match updateLargestMark largest maxCumul pack with
  | none => none
  | some (lg, mx) =>
      if pack.CumulBytesTransmitted > mx then none else some (lg, mx)

/-- `RecvState.UpdateFlowControl`: recompute the advertised window and push
it into the shared flow-control object (`r.snd.FlowCt.UpdateFlow`). -/
def RecvState.UpdateFlowControl (r : RecvState) : RecvState :=
  let msgCap := r.RecvWindowSize - (r.LargestSeqnoRcvd - r.LastMsgConsumed)
  let bytesCap :=
    r.RecvWindowSizeBytes - (r.MaxCumulBytesTrans - (r.LastByteConsumed + 1))
  { r with
      LastAvailReaderMsgCap := msgCap
      LastAvailReaderBytesCap := bytesCap
      flowCt := ⟨msgCap, bytesCap⟩ }

/-- `RecvState.ack`: recompute flow control, then build the ack-only packet
sent to `dest` through `r.snd.SendAck`.  Returns the updated state and the
ack packet. -/
def RecvState.sendAck (r : RecvState) (seqno : Int) (dest : ByteStr) :
    RecvState × Packet :=
  let r1 := r.UpdateFlowControl
  (r1,
    { emptyPacket with
        From := r1.Inbox
        Dest := dest
        SeqNum := -99
        AckNum := seqno
        AckOnly := true
        AvailReaderBytesCap := r1.LastAvailReaderBytesCap
        AvailReaderMsgCap := r1.LastAvailReaderMsgCap })

/-- Go's `%` on `int64` (truncated remainder). -/
def goMod (a b : Int) : Int := Int.tmod a b

/-- The in-order delivery walk of the receive loop:

```go
for slot.Received {
    r.ReadyForDelivery = append(r.ReadyForDelivery, slot.Pack)
    r.RecvHistory = append(r.RecvHistory, slot.Pack)
    slot.Received = false
    slot.Pack = nil
    r.NextFrameExpected++
    slot = r.Rxq[r.NextFrameExpected%r.RecvWindowSize]
}
```

The loop clears one received slot per iteration, so it runs at most
`countP Received` times; the caller passes fuel strictly above that
count, making the fuel-free and fuelled behaviours agree. -/
def slotIdx (r : RecvState) : Nat :=
  (goMod r.NextFrameExpected r.RecvWindowSize).toNat

/-- The slot the walk is looking at: `r.Rxq[r.NextFrameExpected % r.RecvWindowSize]`. -/
def curSlot (r : RecvState) : RxqSlot := r.Rxq.getD (slotIdx r) default

def deliverLoop : Nat → RecvState → RecvState
  | 0, r => r
  | fuel + 1, r =>
      if (curSlot r).Received then
        deliverLoop fuel
          { r with
              ReadyForDelivery :=
                r.ReadyForDelivery ++ [(curSlot r).Pack.getD emptyPacket]
              RecvHistory := r.RecvHistory ++ [(curSlot r).Pack.getD emptyPacket]
              Rxq := r.Rxq.set (slotIdx r) ⟨false, none⟩
              NextFrameExpected := r.NextFrameExpected + 1 }
      else r

/-- One pass of the receive loop for an arriving packet
(`case pack := <-r.MsgRecv`).  Returns `none` when one of the two
monotonicity panics fires; otherwise returns the new state, the
`AckStatus` forwarded to the local sender on `snd.GotAck`, and the ack
packet (if any) handed to `snd.SendAck`.

The Go loop reads the ring slot (`slot := r.Rxq[...]`) one line before
the `InWindow` test; that read has no effect, so the model performs the
test first.  The ASAP side-channel offer does not change the receiver
state and is not modelled. -/
def recvStep (r0 : RecvState) (pack : Packet) :
    Option (RecvState × AckStatus × Option Packet) :=
  match updateCumulMarks r0.LargestSeqnoRcvd r0.MaxCumulBytesTrans pack with
  | none => none
  | some (lg, mx) =>
      let r1 := { r0 with LargestSeqnoRcvd := lg, MaxCumulBytesTrans := mx }
      let r2 := r1.UpdateFlowControl
      let as : AckStatus :=
        { OnlyUpdateFlowCtrl := !pack.AckOnly
          AckNum := pack.AckNum
          AckCameWithPacket := pack.SeqNum
          AvailReaderBytesCap := pack.AvailReaderBytesCap
          AvailReaderMsgCap := pack.AvailReaderMsgCap }
      if pack.AckOnly then some (r2, as, none)
      else if pack.KeepAlive then
        some ((r2.sendAck (r2.NextFrameExpected - 1) pack.From).1, as,
          some (r2.sendAck (r2.NextFrameExpected - 1) pack.From).2)
      else
        let r3 :=
          if pack.SeqNum ≥ r2.NextFrameExpected then
            { r2 with RcvdButNotConsumed :=
                seqnoMapInsert r2.RcvdButNotConsumed pack.SeqNum pack }
          else r2
        if InWindow pack.SeqNum r3.NextFrameExpected
            (r3.NextFrameExpected + r3.RecvWindowSize - 1) then
          let idx := (goMod pack.SeqNum r3.RecvWindowSize).toNat
          let r4 := { r3 with Rxq := r3.Rxq.set idx ⟨true, some pack⟩ }
          if pack.SeqNum = r4.NextFrameExpected then
            let r5 := deliverLoop (r4.Rxq.countP (·.Received) + 1) r4
            some ((r5.sendAck (r5.NextFrameExpected - 1) pack.From).1, as,
              some (r5.sendAck (r5.NextFrameExpected - 1) pack.From).2)
          else some (r4, as, none)
        else
          let r4 := { r3 with DiscardCount := r3.DiscardCount + 1 }
          some ((r4.sendAck (r4.NextFrameExpected - 1) pack.From).1, as,
            some (r4.sendAck (r4.NextFrameExpected - 1) pack.From).2)

/-- The consumer-handoff branch of the receive loop
(`case deliverToConsumer <- delivery`), enabled only when
`ReadyForDelivery` is non-empty:

```go
for _, pack := range delivery.Seq {
    delete(r.RcvdButNotConsumed, pack.SeqNum)
    r.LastMsgConsumed = pack.SeqNum
}
r.LastByteConsumed = delivery.Seq[0].CumulBytesTransmitted - int64(len(delivery.Seq[0].Data))
r.ReadyForDelivery = r.ReadyForDelivery[:0]
```

Returns the updated state and the delivered batch (or `none` when the
handoff is disabled because nothing is ready). -/
def deliverToConsumer (r : RecvState) : RecvState × Option InOrderSeq :=
  if r.ReadyForDelivery.isEmpty then (r, none)
  else
    let batch := r.ReadyForDelivery
    let r1 := batch.foldl
      (fun acc p =>
        { acc with
            RcvdButNotConsumed := seqnoMapRemove acc.RcvdButNotConsumed p.SeqNum
            LastMsgConsumed := p.SeqNum })
      r
    let first := batch.headD emptyPacket
    let r2 :=
      { r1 with
          LastByteConsumed :=
            first.CumulBytesTransmitted - (first.Data.length : Int)
          ReadyForDelivery := [] }
    (r2, some ⟨batch⟩)

/-- An event processed by the receive loop: a packet arrival, or a
consumer handoff of the ready batch. -/
inductive RecvEvent where
  | arrive (pack : Packet)
  | deliver
  deriving DecidableEq, Repr

/-- Run the receive loop over a list of events; `none` as soon as a
monotonicity panic fires. -/
def runRecvEvents (r : RecvState) : List RecvEvent → Option RecvState
  | [] => some r
  | RecvEvent.arrive p :: rest =>
      match recvStep r p with
      | none => none
      | some (r1, _, _) => runRecvEvents r1 rest
  | RecvEvent.deliver :: rest => runRecvEvents (deliverToConsumer r).1 rest

/-- The Go `error` values produced by the sources under consideration:
`ErrShutdown` from swp.go and the `fmt.Errorf("sim sees packet for
unknown node ...")` error from simnet.go. -/
inductive GoErr where
  | shutdown
  | unknownNode (dest : ByteStr)
  deriving DecidableEq, Repr

/-- `ErrShutdown` from swp.go. -/
def ErrShutdown : GoErr := GoErr.shutdown

/-- Observable outcome of `Session.Push`: whether the payload packet was
handed to the sender's `BlockingSend` channel, and the error returned to
the caller.  The Go signature `func (sess *Session) Push(pack *Packet)`
declares no return values, so `err` is `none` on every path. -/
structure PushOutcome where
  admitted : Option Packet
  err : Option GoErr
  deriving DecidableEq, Repr

/-- `Session.Push` from swp.go:

```go
func (sess *Session) Push(pack *Packet) {
    select {
    case sess.Swp.Sender.BlockingSend <- pack:
    case <-sess.Swp.Sender.ReqStop:
        // give up, Sender is shutting down.
    }
}
```

`stopping` models whether `ReqStop` is closed (the sender's shutdown
signal has been raised); in that case the sender worker is no longer
receiving on `BlockingSend`, the select takes the `ReqStop` branch, and
`Push` returns without admitting the packet and without any error. -/
def Session.Push (stopping : Bool) (pack : Packet) : PushOutcome :=
  if stopping then { admitted := none, err := none }
  else { admitted := some pack, err := none }

/-- A packet handed to a per-packet latency timer by `SimNet.Send`
(`go sim.sendWithLatency(ch, pack, lat)`): the inbox whose channel `ch`
it will be delivered to, the packet, and the latency in nanoseconds.
Note the held-back and duplicated packets are delivered on the channel of
the *current* send's destination. -/
structure Delivery where
  toInbox : ByteStr
  pack : Packet
  lat : Int
  deriving DecidableEq, Repr

/-- Counter map `map[string]int64` (`TotalSent` / `TotalRcvd`). -/
abbrev CountMap := List (ByteStr × Int)

/-- `m[k]++` on a Go counter map (a missing key counts as zero). -/
def countMapBump (m : CountMap) (k : ByteStr) : CountMap :=
  match m with
  | [] => [(k, 1)]
  | (k1, v) :: rest =>
      if k1 = k then (k1, v + 1) :: rest else (k1, v) :: countMapBump rest k

/-- `SimNet` from simnet.go: the network simulator.  `Net` is modelled by
its key set (each registered inbox stands for its channel); `LossProb`
and the cryptographic draw of `cryptoProb()` are summarized by the
Boolean argument `isLost` given to `Send`. -/
structure SimNet where
  Net : List ByteStr
  Latency : Int
  TotalSent : CountMap
  DiscardOnce : Int
  SimulateReorderNext : Int
  heldBack : Option Packet
  DuplicateNext : Bool
  deriving DecidableEq, Repr

/-- `NewSimNet` from simnet.go (the latency argument in nanoseconds). -/
def NewSimNet (latency : Int) : SimNet :=
  { Net := []
    Latency := latency
    TotalSent := []
    DiscardOnce := -1
    SimulateReorderNext := 0
    heldBack := none
    DuplicateNext := false }

/-- `SimNet.Listen` from simnet.go: registers a channel for `inbox`
(`sim.Net[inbox] = ch`) and never fails. -/
def SimNet.Listen (sim : SimNet) (inbox : ByteStr) : SimNet :=
  if sim.Net.contains inbox then sim else { sim with Net := inbox :: sim.Net }

/-- `SimNet.Send` from simnet.go.  `isLost` is the outcome of the random
draw `sim.LossProb > 0 && cryptoProb() <= sim.LossProb`.  Returns the new
simulator state, the list of packets handed to latency timers for later
delivery, and the returned `error`. -/
def SimNet.Send (sim0 : SimNet) (pack : Packet) (isLost : Bool) :
    SimNet × List Delivery × Option GoErr :=
  let sim := { sim0 with TotalSent := countMapBump sim0.TotalSent pack.From }
  if sim.Net.contains pack.Dest then
    if sim.SimulateReorderNext = 1 then
      ({ sim with
          heldBack := some pack
          SimulateReorderNext := sim.SimulateReorderNext + 1 }, [], none)
    else
      let sim :=
        if sim.SimulateReorderNext = 0 then sim
        else { sim with SimulateReorderNext := 0 }
      if pack.SeqNum = sim.DiscardOnce then
        ({ sim with DiscardOnce := -1 }, [], none)
      else if isLost then (sim, [], none)
      else
        let base : List Delivery := [⟨pack.Dest, pack, sim.Latency⟩]
        let (sim, withHeld) :=
          match sim.heldBack with
          | some hb =>
              ({ sim with heldBack := none },
                base ++ [Delivery.mk pack.Dest hb (sim.Latency + 20000000)])
          | none => (sim, base)
        let (sim, finalDeliveries) :=
          if sim.DuplicateNext then
            ({ sim with DuplicateNext := false },
              withHeld ++ [Delivery.mk pack.Dest pack sim.Latency])
          else (sim, withHeld)
        (sim, finalDeliveries, none)
  else (sim, [], some (GoErr.unknownNode pack.Dest))

/-! ## The msgp codec (swp_gen.go)

`Packet.MarshalMsg` and `Packet.UnmarshalMsg` are generated by the msgp
tool and call primitives of the external `tinylib/msgp` library.  Those
primitives are modelled below, byte-exact, from the MessagePack formats
the library uses: compact signed-int encodings for `AppendInt64`,
fixstr/str8/str16/str32 for `AppendString`, bin8/bin16/bin32 for
`AppendBytes`, the ext8 time extension (type 5, 12 payload bytes:
big-endian Unix seconds and nanoseconds) for `AppendTime`, and the full
MessagePack size table for `Skip`.  Bytes are `Nat` values; big-endian
length and value fields use `beBytes`/`beVal`.
-/

/-- `w` bytes of `n`, big-endian (the low byte last). -/
def beBytes : Nat → Nat → ByteStr
  | 0, _ => []
  | w + 1, n => beBytes w (n / 256) ++ [n % 256]

/-- Value of a big-endian byte string. -/
def beVal (l : ByteStr) : Nat := l.foldl (fun a b => a * 256 + b) 0

/-- Read `w` big-endian bytes off the front of the stream. -/
def readBe (w : Nat) (bts : ByteStr) : Option (Nat × ByteStr) :=
  if w ≤ bts.length then some (beVal (bts.take w), bts.drop w) else none

/-- Split `n` bytes off the front of the stream. -/
def takeExact (n : Nat) (l : ByteStr) : Option (ByteStr × ByteStr) :=
  if n ≤ l.length then some (l.take n, l.drop n) else none

/-- Drop `n` bytes off the front of the stream. -/
def dropExact (n : Nat) (l : ByteStr) : Option ByteStr :=
  if n ≤ l.length then some (l.drop n) else none

/-- The `w`-byte two's-complement representative of `i`. -/
def intToTwos (w : Nat) (i : Int) : Nat := (i % ((2 : Int) ^ (8 * w))).toNat

/-- Decode a `w`-byte two's-complement value. -/
def twosToInt (w : Nat) (n : Nat) : Int :=
  if n < 2 ^ (8 * w - 1) then (n : Int) else (n : Int) - 2 ^ (8 * w)

/-- `msgp.AppendInt64`: most-compact signed encoding (positive fixint,
negative fixint, or int8/int16/int32/int64 with markers 0xd0–0xd3). -/
def appendInt64 (i : Int) : ByteStr :=
  if 0 ≤ i then
    if i ≤ 127 then [i.toNat]
    else if i ≤ 32767 then 0xd1 :: beBytes 2 (intToTwos 2 i)
    else if i ≤ 2147483647 then 0xd2 :: beBytes 4 (intToTwos 4 i)
    else 0xd3 :: beBytes 8 (intToTwos 8 i)
  else
    if -32 ≤ i then [(i + 256).toNat]
    else if -128 ≤ i then [0xd0, intToTwos 1 i]
    else if -32768 ≤ i then 0xd1 :: beBytes 2 (intToTwos 2 i)
    else if -2147483648 ≤ i then 0xd2 :: beBytes 4 (intToTwos 4 i)
    else 0xd3 :: beBytes 8 (intToTwos 8 i)

/-- `msgp.ReadInt64Bytes`: accepts both fixints, the signed int family
(0xd0–0xd3) and the unsigned family (0xcc–0xcf, erring on uint64 values
above the int64 maximum). -/
def readInt64Bytes (bts : ByteStr) : Option (Int × ByteStr) :=
  match bts with
  | [] => none
  | lead :: rest =>
      if lead < 0x80 then some ((lead : Int), rest)
      else if 0xe0 ≤ lead ∧ lead ≤ 0xff then some ((lead : Int) - 256, rest)
      else if lead = 0xd0 then
        (readBe 1 rest).bind fun x => some (twosToInt 1 x.1, x.2)
      else if lead = 0xd1 then
        (readBe 2 rest).bind fun x => some (twosToInt 2 x.1, x.2)
      else if lead = 0xd2 then
        (readBe 4 rest).bind fun x => some (twosToInt 4 x.1, x.2)
      else if lead = 0xd3 then
        (readBe 8 rest).bind fun x => some (twosToInt 8 x.1, x.2)
      else if lead = 0xcc then
        (readBe 1 rest).bind fun x => some ((x.1 : Int), x.2)
      else if lead = 0xcd then
        (readBe 2 rest).bind fun x => some ((x.1 : Int), x.2)
      else if lead = 0xce then
        (readBe 4 rest).bind fun x => some ((x.1 : Int), x.2)
      else if lead = 0xcf then
        (readBe 8 rest).bind fun x =>
          if x.1 < 2 ^ 63 then some ((x.1 : Int), x.2) else none
      else none

/-- `msgp.AppendString`: fixstr, str8, str16 or str32 by length (string
lengths at or above 2^32 would be truncated by the Go uint32 header, and
are excluded by the well-formedness side conditions). -/
def appendStr (s : ByteStr) : ByteStr :=
  let sz := s.length
  if sz ≤ 31 then (0xa0 + sz) :: s
  else if sz ≤ 255 then 0xd9 :: sz :: s
  else if sz ≤ 65535 then 0xda :: (beBytes 2 sz ++ s)
  else 0xdb :: (beBytes 4 sz ++ s)

/-- `msgp.ReadStringBytes` / `msgp.ReadStringZC`: the str family. -/
def readStrBytes (bts : ByteStr) : Option (ByteStr × ByteStr) :=
  match bts with
  | [] => none
  | lead :: rest =>
      if 0xa0 ≤ lead ∧ lead ≤ 0xbf then takeExact (lead - 0xa0) rest
      else if lead = 0xd9 then
        match rest with
        | [] => none
        | szb :: r2 => takeExact szb r2
      else if lead = 0xda then (readBe 2 rest).bind fun x => takeExact x.1 x.2
      else if lead = 0xdb then (readBe 4 rest).bind fun x => takeExact x.1 x.2
      else none

/-- `msgp.ReadMapKeyZC`: map keys are read as strings. -/
def readMapKeyZC (bts : ByteStr) : Option (ByteStr × ByteStr) :=
  readStrBytes bts

/-- `msgp.AppendBool`. -/
def appendBool (b : Bool) : ByteStr := if b then [0xc3] else [0xc2]

/-- `msgp.ReadBoolBytes`. -/
def readBoolBytes (bts : ByteStr) : Option (Bool × ByteStr) :=
  match bts with
  | [] => none
  | lead :: rest =>
      if lead = 0xc3 then some (true, rest)
      else if lead = 0xc2 then some (false, rest)
      else none

/-- `msgp.AppendBytes`: bin8, bin16 or bin32 by length. -/
def appendBytes (d : ByteStr) : ByteStr :=
  let sz := d.length
  if sz ≤ 255 then 0xc4 :: sz :: d
  else if sz ≤ 65535 then 0xc5 :: (beBytes 2 sz ++ d)
  else 0xc6 :: (beBytes 4 sz ++ d)

/-- `msgp.ReadBytesBytes`: the bin family. -/
def readBytesBytes (bts : ByteStr) : Option (ByteStr × ByteStr) :=
  match bts with
  | [] => none
  | lead :: rest =>
      if lead = 0xc4 then
        match rest with
        | [] => none
        | szb :: r2 => takeExact szb r2
      else if lead = 0xc5 then (readBe 2 rest).bind fun x => takeExact x.1 x.2
      else if lead = 0xc6 then (readBe 4 rest).bind fun x => takeExact x.1 x.2
      else none

/-- `msgp.AppendTime`: ext8 (0xc7) of length 12 with the time extension
type (5); payload is big-endian `t.Unix()` (8 bytes) and `int32`
nanoseconds (4 bytes). -/
def appendTime (t : TimeT) : ByteStr :=
  [0xc7, 12, 5] ++ beBytes 8 (intToTwos 8 t.sec) ++ beBytes 4 (intToTwos 4 t.nsec)

/-- `msgp.ReadTimeBytes`. -/
def readTimeBytes (bts : ByteStr) : Option (TimeT × ByteStr) :=
  match bts with
  | lead :: l2 :: typ :: rest =>
      if lead = 0xc7 ∧ l2 = 12 ∧ typ = 5 then
        (readBe 8 rest).bind fun x =>
          (readBe 4 x.2).bind fun y =>
            some (⟨twosToInt 8 x.1, twosToInt 4 y.1⟩, y.2)
      else none
  | _ => none

/-- `msgp.ReadMapHeaderBytes`: fixmap, map16 (0xde) or map32 (0xdf). -/
def readMapHeaderBytes (bts : ByteStr) : Option (Nat × ByteStr) :=
  match bts with
  | [] => none
  | lead :: rest =>
      if 0x80 ≤ lead ∧ lead ≤ 0x8f then some (lead - 0x80, rest)
      else if lead = 0xde then readBe 2 rest
      else if lead = 0xdf then readBe 4 rest
      else none

/-- `msgp.Skip`, over the complete MessagePack size table.  `cnt` is the
number of pending objects still to skip (children of containers are added
to it); `fuel` bounds the container nesting and is decremented exactly
when a container header is consumed, so `bts.length` is always enough. -/
def skipMany : Nat → Nat → ByteStr → Option ByteStr
  | _, 0, bts => some bts
  | 0, _ + 1, _ => none
  | fuel + 1, cnt + 1, bts =>
      match bts with
      | [] => none
      | lead :: rest =>
          if lead < 0x80 then skipMany (fuel + 1) cnt rest
          else if lead ≤ 0x8f then skipMany fuel (2 * (lead - 0x80) + cnt) rest
          else if lead ≤ 0x9f then skipMany fuel ((lead - 0x90) + cnt) rest
          else if lead ≤ 0xbf then
            (dropExact (lead - 0xa0) rest).bind (skipMany (fuel + 1) cnt)
          else if lead = 0xc0 ∨ lead = 0xc2 ∨ lead = 0xc3 then
            skipMany (fuel + 1) cnt rest
          else if lead = 0xc4 then
            match rest with
            | [] => none
            | szb :: r2 => (dropExact szb r2).bind (skipMany (fuel + 1) cnt)
          else if lead = 0xc5 then
            (readBe 2 rest).bind fun x =>
              (dropExact x.1 x.2).bind (skipMany (fuel + 1) cnt)
          else if lead = 0xc6 then
            (readBe 4 rest).bind fun x =>
              (dropExact x.1 x.2).bind (skipMany (fuel + 1) cnt)
          else if lead = 0xc7 then
            match rest with
            | [] => none
            | szb :: r2 => (dropExact (1 + szb) r2).bind (skipMany (fuel + 1) cnt)
          else if lead = 0xc8 then
            (readBe 2 rest).bind fun x =>
              (dropExact (1 + x.1) x.2).bind (skipMany (fuel + 1) cnt)
          else if lead = 0xc9 then
            (readBe 4 rest).bind fun x =>
              (dropExact (1 + x.1) x.2).bind (skipMany (fuel + 1) cnt)
          else if lead = 0xca then (dropExact 4 rest).bind (skipMany (fuel + 1) cnt)
          else if lead = 0xcb then (dropExact 8 rest).bind (skipMany (fuel + 1) cnt)
          else if lead = 0xcc ∨ lead = 0xd0 then
            (dropExact 1 rest).bind (skipMany (fuel + 1) cnt)
          else if lead = 0xcd ∨ lead = 0xd1 then
            (dropExact 2 rest).bind (skipMany (fuel + 1) cnt)
          else if lead = 0xce ∨ lead = 0xd2 then
            (dropExact 4 rest).bind (skipMany (fuel + 1) cnt)
          else if lead = 0xcf ∨ lead = 0xd3 then
            (dropExact 8 rest).bind (skipMany (fuel + 1) cnt)
          else if lead = 0xd4 then (dropExact 2 rest).bind (skipMany (fuel + 1) cnt)
          else if lead = 0xd5 then (dropExact 3 rest).bind (skipMany (fuel + 1) cnt)
          else if lead = 0xd6 then (dropExact 5 rest).bind (skipMany (fuel + 1) cnt)
          else if lead = 0xd7 then (dropExact 9 rest).bind (skipMany (fuel + 1) cnt)
          else if lead = 0xd8 then (dropExact 17 rest).bind (skipMany (fuel + 1) cnt)
          else if lead = 0xd9 then
            match rest with
            | [] => none
            | szb :: r2 => (dropExact szb r2).bind (skipMany (fuel + 1) cnt)
          else if lead = 0xda then
            (readBe 2 rest).bind fun x =>
              (dropExact x.1 x.2).bind (skipMany (fuel + 1) cnt)
          else if lead = 0xdb then
            (readBe 4 rest).bind fun x =>
              (dropExact x.1 x.2).bind (skipMany (fuel + 1) cnt)
          else if lead = 0xdc then
            (readBe 2 rest).bind fun x => skipMany fuel (x.1 + cnt) x.2
          else if lead = 0xdd then
            (readBe 4 rest).bind fun x => skipMany fuel (x.1 + cnt) x.2
          else if lead = 0xde then
            (readBe 2 rest).bind fun x => skipMany fuel (2 * x.1 + cnt) x.2
          else if lead = 0xdf then
            (readBe 4 rest).bind fun x => skipMany fuel (2 * x.1 + cnt) x.2
          else if 0xe0 ≤ lead ∧ lead ≤ 0xff then skipMany (fuel + 1) cnt rest
          else none
  termination_by fuel cnt _ => (fuel, cnt)

/-- `msgp.Skip`: skip one MessagePack object. -/
def msgpSkip (bts : ByteStr) : Option ByteStr := skipMany bts.length 1 bts

/-- The raw bytes of the field name string 'From'. -/
def keyFrom : ByteStr := [0x46, 0x72, 0x6f, 0x6d]

/-- The raw bytes of the field name string 'Dest'. -/
def keyDest : ByteStr := [0x44, 0x65, 0x73, 0x74]

/-- The raw bytes of the field name string 'ArrivedAtDestTm'. -/
def keyArrivedAtDestTm : ByteStr := [0x41, 0x72, 0x72, 0x69, 0x76, 0x65, 0x64, 0x41, 0x74, 0x44, 0x65, 0x73, 0x74, 0x54, 0x6d]

/-- The raw bytes of the field name string 'DataSendTm'. -/
def keyDataSendTm : ByteStr := [0x44, 0x61, 0x74, 0x61, 0x53, 0x65, 0x6e, 0x64, 0x54, 0x6d]

/-- The raw bytes of the field name string 'SeqNum'. -/
def keySeqNum : ByteStr := [0x53, 0x65, 0x71, 0x4e, 0x75, 0x6d]

/-- The raw bytes of the field name string 'SeqRetry'. -/
def keySeqRetry : ByteStr := [0x53, 0x65, 0x71, 0x52, 0x65, 0x74, 0x72, 0x79]

/-- The raw bytes of the field name string 'AckNum'. -/
def keyAckNum : ByteStr := [0x41, 0x63, 0x6b, 0x4e, 0x75, 0x6d]

/-- The raw bytes of the field name string 'AckRetry'. -/
def keyAckRetry : ByteStr := [0x41, 0x63, 0x6b, 0x52, 0x65, 0x74, 0x72, 0x79]

/-- The raw bytes of the field name string 'AckReplyTm'. -/
def keyAckReplyTm : ByteStr := [0x41, 0x63, 0x6b, 0x52, 0x65, 0x70, 0x6c, 0x79, 0x54, 0x6d]

/-- The raw bytes of the field name string 'AckOnly'. -/
def keyAckOnly : ByteStr := [0x41, 0x63, 0x6b, 0x4f, 0x6e, 0x6c, 0x79]

/-- The raw bytes of the field name string 'KeepAlive'. -/
def keyKeepAlive : ByteStr := [0x4b, 0x65, 0x65, 0x70, 0x41, 0x6c, 0x69, 0x76, 0x65]

/-- The raw bytes of the field name string 'AvailReaderBytesCap'. -/
def keyAvailReaderBytesCap : ByteStr := [0x41, 0x76, 0x61, 0x69, 0x6c, 0x52, 0x65, 0x61, 0x64, 0x65, 0x72, 0x42, 0x79, 0x74, 0x65, 0x73, 0x43, 0x61, 0x70]

/-- The raw bytes of the field name string 'AvailReaderMsgCap'. -/
def keyAvailReaderMsgCap : ByteStr := [0x41, 0x76, 0x61, 0x69, 0x6c, 0x52, 0x65, 0x61, 0x64, 0x65, 0x72, 0x4d, 0x73, 0x67, 0x43, 0x61, 0x70]

/-- The raw bytes of the field name string 'FromRttEstNsec'. -/
def keyFromRttEstNsec : ByteStr := [0x46, 0x72, 0x6f, 0x6d, 0x52, 0x74, 0x74, 0x45, 0x73, 0x74, 0x4e, 0x73, 0x65, 0x63]

/-- The raw bytes of the field name string 'FromRttSdNsec'. -/
def keyFromRttSdNsec : ByteStr := [0x46, 0x72, 0x6f, 0x6d, 0x52, 0x74, 0x74, 0x53, 0x64, 0x4e, 0x73, 0x65, 0x63]

/-- The raw bytes of the field name string 'FromRttN'. -/
def keyFromRttN : ByteStr := [0x46, 0x72, 0x6f, 0x6d, 0x52, 0x74, 0x74, 0x4e]

/-- The raw bytes of the field name string 'CumulBytesTransmitted'. -/
def keyCumulBytesTransmitted : ByteStr := [0x43, 0x75, 0x6d, 0x75, 0x6c, 0x42, 0x79, 0x74, 0x65, 0x73, 0x54, 0x72, 0x61, 0x6e, 0x73, 0x6d, 0x69, 0x74, 0x74, 0x65, 0x64]

/-- The raw bytes of the field name string 'Data'. -/
def keyData : ByteStr := [0x44, 0x61, 0x74, 0x61]

/-- The list of the 18 field-name byte strings of the `Packet` codec. -/
def packetFieldNames : List ByteStr :=
  [keyFrom, keyDest, keyArrivedAtDestTm, keyDataSendTm, keySeqNum, keySeqRetry, keyAckNum, keyAckRetry, keyAckReplyTm, keyAckOnly, keyKeepAlive, keyAvailReaderBytesCap, keyAvailReaderMsgCap, keyFromRttEstNsec, keyFromRttSdNsec, keyFromRttN, keyCumulBytesTransmitted, keyData]

/-- `Packet.MarshalMsg` from swp_gen.go (applied to a nil initial buffer):
the map16 header `0xde 0x00 0x12` (18 entries), then each field as its
fixstr name followed by its encoded value, in source order. -/
def Packet.MarshalMsg (z : Packet) : ByteStr :=
  [0xde, 0x00, 0x12]
  ++ (0xa4 :: keyFrom) ++ appendStr z.From
  ++ (0xa4 :: keyDest) ++ appendStr z.Dest
  ++ (0xaf :: keyArrivedAtDestTm) ++ appendTime z.ArrivedAtDestTm
  ++ (0xaa :: keyDataSendTm) ++ appendTime z.DataSendTm
  ++ (0xa6 :: keySeqNum) ++ appendInt64 z.SeqNum
  ++ (0xa8 :: keySeqRetry) ++ appendInt64 z.SeqRetry
  ++ (0xa6 :: keyAckNum) ++ appendInt64 z.AckNum
  ++ (0xa8 :: keyAckRetry) ++ appendInt64 z.AckRetry
  ++ (0xaa :: keyAckReplyTm) ++ appendTime z.AckReplyTm
  ++ (0xa7 :: keyAckOnly) ++ appendBool z.AckOnly
  ++ (0xa9 :: keyKeepAlive) ++ appendBool z.KeepAlive
  ++ (0xb3 :: keyAvailReaderBytesCap) ++ appendInt64 z.AvailReaderBytesCap
  ++ (0xb1 :: keyAvailReaderMsgCap) ++ appendInt64 z.AvailReaderMsgCap
  ++ (0xae :: keyFromRttEstNsec) ++ appendInt64 z.FromRttEstNsec
  ++ (0xad :: keyFromRttSdNsec) ++ appendInt64 z.FromRttSdNsec
  ++ (0xa8 :: keyFromRttN) ++ appendInt64 z.FromRttN
  ++ (0xb5 :: keyCumulBytesTransmitted) ++ appendInt64 z.CumulBytesTransmitted
  ++ (0xa4 :: keyData) ++ appendBytes z.Data

/-- The field loop of `Packet.UnmarshalMsg`: read `n` map entries,
dispatching on the field name and skipping unknown names. -/
def unmarshalFields : Nat → Packet → ByteStr → Option (Packet × ByteStr)
  | 0, z, bts => some (z, bts)
  | n + 1, z, bts =>
      (readMapKeyZC bts).bind fun fb =>
      if fb.1 = keyFrom then
        (readStrBytes fb.2).bind fun x =>
          unmarshalFields n { z with From := x.1 } x.2
      else if fb.1 = keyDest then
        (readStrBytes fb.2).bind fun x =>
          unmarshalFields n { z with Dest := x.1 } x.2
      else if fb.1 = keyArrivedAtDestTm then
        (readTimeBytes fb.2).bind fun x =>
          unmarshalFields n { z with ArrivedAtDestTm := x.1 } x.2
      else if fb.1 = keyDataSendTm then
        (readTimeBytes fb.2).bind fun x =>
          unmarshalFields n { z with DataSendTm := x.1 } x.2
      else if fb.1 = keySeqNum then
        (readInt64Bytes fb.2).bind fun x =>
          unmarshalFields n { z with SeqNum := x.1 } x.2
      else if fb.1 = keySeqRetry then
        (readInt64Bytes fb.2).bind fun x =>
          unmarshalFields n { z with SeqRetry := x.1 } x.2
      else if fb.1 = keyAckNum then
        (readInt64Bytes fb.2).bind fun x =>
          unmarshalFields n { z with AckNum := x.1 } x.2
      else if fb.1 = keyAckRetry then
        (readInt64Bytes fb.2).bind fun x =>
          unmarshalFields n { z with AckRetry := x.1 } x.2
      else if fb.1 = keyAckReplyTm then
        (readTimeBytes fb.2).bind fun x =>
          unmarshalFields n { z with AckReplyTm := x.1 } x.2
      else if fb.1 = keyAckOnly then
        (readBoolBytes fb.2).bind fun x =>
          unmarshalFields n { z with AckOnly := x.1 } x.2
      else if fb.1 = keyKeepAlive then
        (readBoolBytes fb.2).bind fun x =>
          unmarshalFields n { z with KeepAlive := x.1 } x.2
      else if fb.1 = keyAvailReaderBytesCap then
        (readInt64Bytes fb.2).bind fun x =>
          unmarshalFields n { z with AvailReaderBytesCap := x.1 } x.2
      else if fb.1 = keyAvailReaderMsgCap then
        (readInt64Bytes fb.2).bind fun x =>
          unmarshalFields n { z with AvailReaderMsgCap := x.1 } x.2
      else if fb.1 = keyFromRttEstNsec then
        (readInt64Bytes fb.2).bind fun x =>
          unmarshalFields n { z with FromRttEstNsec := x.1 } x.2
      else if fb.1 = keyFromRttSdNsec then
        (readInt64Bytes fb.2).bind fun x =>
          unmarshalFields n { z with FromRttSdNsec := x.1 } x.2
      else if fb.1 = keyFromRttN then
        (readInt64Bytes fb.2).bind fun x =>
          unmarshalFields n { z with FromRttN := x.1 } x.2
      else if fb.1 = keyCumulBytesTransmitted then
        (readInt64Bytes fb.2).bind fun x =>
          unmarshalFields n { z with CumulBytesTransmitted := x.1 } x.2
      else if fb.1 = keyData then
        (readBytesBytes fb.2).bind fun x =>
          unmarshalFields n { z with Data := x.1 } x.2
      else (msgpSkip fb.2).bind fun r2 => unmarshalFields n z r2

/-- `Packet.UnmarshalMsg` from swp_gen.go: read the map header, then the
fields; returns the updated packet and the leftover bytes `o`. -/
def Packet.UnmarshalMsg (z : Packet) (bts : ByteStr) : Option (Packet × ByteStr) :=
  (readMapHeaderBytes bts).bind fun h => unmarshalFields h.1 z h.2

/-- An `Int` within the range of Go `int64`. -/
def int64Wf (i : Int) : Prop := -(2 ^ 63) ≤ i ∧ i < 2 ^ 63

/-- A representable `time.Time` instant: `int64` seconds and the
`t.Nanosecond()` range `[0, 10^9)`. -/
def timeWf (t : TimeT) : Prop := int64Wf t.sec ∧ 0 ≤ t.nsec ∧ t.nsec < 1000000000

/-- Well-formedness of a `Packet` as a Go value: every `int64` field in
range, times representable, and string/byte lengths below 2^32 (Go
slices cannot reach the uint32 header truncation limit in practice). -/
def Packet.Wf (p : Packet) : Prop :=
  p.From.length < 2 ^ 32 ∧
  p.Dest.length < 2 ^ 32 ∧
  p.Data.length < 2 ^ 32 ∧
  timeWf p.ArrivedAtDestTm ∧
  timeWf p.DataSendTm ∧
  int64Wf p.SeqNum ∧
  int64Wf p.SeqRetry ∧
  int64Wf p.AckNum ∧
  int64Wf p.AckRetry ∧
  timeWf p.AckReplyTm ∧
  int64Wf p.AvailReaderBytesCap ∧
  int64Wf p.AvailReaderMsgCap ∧
  int64Wf p.FromRttEstNsec ∧
  int64Wf p.FromRttSdNsec ∧
  int64Wf p.FromRttN ∧
  int64Wf p.CumulBytesTransmitted



/-! ## General lemmas about the receiver step -/

/-- A small concrete data packet (no flags, two data bytes). -/
def samplePacket (sq c : Int) : Packet :=
  { emptyPacket with
      From := [65], Dest := [66], SeqNum := sq,
      CumulBytesTransmitted := c, Data := [10, 11] }

/-- A small concrete fresh receiver: window of 2 messages, 100 bytes. -/
def sampleRecv : RecvState := NewRecvState 2 100 [66]

/-! ## C4: the advertised-window formula -/

/-- C4: for every receiver state, `UpdateFlowControl` sets
`LastAvailReaderMsgCap = RecvWindowSize − (LargestSeqnoRcvd − LastMsgConsumed)`
and `LastAvailReaderBytesCap = RecvWindowSizeBytes − (MaxCumulBytesTrans −
(LastByteConsumed + 1))`, and pushes exactly these two values into the
shared flow-control object visible to the local sender. -/
theorem updateFlowControl_formula (r : RecvState) :
    (r.UpdateFlowControl).LastAvailReaderMsgCap
        = r.RecvWindowSize - (r.LargestSeqnoRcvd - r.LastMsgConsumed) ∧
    (r.UpdateFlowControl).LastAvailReaderBytesCap
        = r.RecvWindowSizeBytes - (r.MaxCumulBytesTrans - (r.LastByteConsumed + 1)) ∧
    (r.UpdateFlowControl).flowCt.AvailReaderMsgCap
        = r.RecvWindowSize - (r.LargestSeqnoRcvd - r.LastMsgConsumed) ∧
    (r.UpdateFlowControl).flowCt.AvailReaderBytesCap
        = r.RecvWindowSizeBytes - (r.MaxCumulBytesTrans - (r.LastByteConsumed + 1)) :=
  ⟨rfl, rfl, rfl, rfl⟩

/-! ## C7: `Session.Push` while the session is stopping -/

/-- C7 (counterexample): when the session is stopping, `Session.Push` does
NOT fail with `ErrShutdown`: its Go signature declares no return value, so
no error reaches the caller — the concrete push below returns no error at
all (and does not admit the payload either). -/
theorem push_stopping_no_error :
    (Session.Push true (samplePacket 0 2)).err = none ∧
    (Session.Push true (samplePacket 0 2)).err ≠ some ErrShutdown := by
  constructor
  · rfl
  · intro h
    simp [Session.Push] at h

/-- C7 (amended): when the session is stopping, `Session.Push` gives up
without admitting the payload, and returns no error to the caller
(`ErrShutdown` is declared in swp.go but `Session.Push` never surfaces
it). -/
theorem push_stopping_gives_up (pack : Packet) :
    (Session.Push true pack).admitted = none ∧
    (Session.Push true pack).err = none :=
  ⟨rfl, rfl⟩

/-! ## C10: `SimNet.Send` errors exactly on unregistered destinations -/

/-- C10: `SimNet.Send` returns a non-nil error iff no listener channel is
registered for the destination inbox; in that case nothing is handed to a
latency timer, and in every other case — lost, one-shot-discarded, or
held back for reordering included — it returns nil. -/
theorem simNet_send_err_iff (sim : SimNet) (pack : Packet) (isLost : Bool) :
    ((sim.Send pack isLost).2.2 ≠ none ↔ sim.Net.contains pack.Dest = false) ∧
    (sim.Net.contains pack.Dest = false →
      (sim.Send pack isLost).2.1 = [] ∧
      (sim.Send pack isLost).2.2 = some (GoErr.unknownNode pack.Dest)) := by
  unfold SimNet.Send
  by_cases h : sim.Net.contains pack.Dest
  · simp only [h, if_true]
    constructor
    · constructor
      · intro hne
        exfalso
        apply hne
        repeat' split
        all_goals rfl
      · intro hfalse
        exact absurd hfalse (by decide)
    · intro hfalse
      exact absurd hfalse (by decide)
  · simp only [h, if_false]
    refine ⟨⟨fun _ => by simp [h], fun _ => by simp⟩, fun _ => ⟨rfl, rfl⟩⟩

/-- C10 (witness): a fresh simulator has no listener registered, so a send
to it errs with the unknown-node error and schedules nothing. -/
theorem simNet_send_err_iff_witness :
    (SimNet.Send (NewSimNet 1000) (samplePacket 0 2) false).2.1 = [] ∧
    (SimNet.Send (NewSimNet 1000) (samplePacket 0 2) false).2.2
      = some (GoErr.unknownNode (samplePacket 0 2).Dest) :=
  (simNet_send_err_iff (NewSimNet 1000) (samplePacket 0 2) false).2 (by decide)

/-! ## C3: out-of-window data packets are counted, acked, and otherwise inert -/

/-- C8: an incoming packet with `KeepAlive = true` and `AckOnly = false`
makes the receiver emit an ack with `AckNum = NextFrameExpected − 1` and
change none of `NextFrameExpected`, the `Rxq` slots,
`RcvdButNotConsumed`, `ReadyForDelivery`, or `RecvHistory`. -/
theorem recv_keepalive_acks_only (r : RecvState) (pack : Packet)
    (out : RecvState × AckStatus × Option Packet)
    (hKa : pack.KeepAlive = true) (hAck : pack.AckOnly = false)
    (hstep : recvStep r pack = some out) :
    out.1.NextFrameExpected = r.NextFrameExpected ∧
    out.1.Rxq = r.Rxq ∧
    out.1.RcvdButNotConsumed = r.RcvdButNotConsumed ∧
    out.1.ReadyForDelivery = r.ReadyForDelivery ∧
    out.1.RecvHistory = r.RecvHistory ∧
    ∃ a, out.2.2 = some a ∧ a.AckOnly = true ∧ a.Dest = pack.From ∧
      a.AckNum = r.NextFrameExpected - 1 := by
  unfold recvStep at hstep
  cases hm : updateCumulMarks r.LargestSeqnoRcvd r.MaxCumulBytesTrans pack with
  | none => rw [hm] at hstep; exact absurd hstep (by simp)
  | some lm =>
    obtain ⟨lg, mx⟩ := lm
    rw [hm] at hstep
    simp only [hAck, hKa, Bool.false_eq_true, if_false, if_true,
      RecvState.UpdateFlowControl, RecvState.sendAck] at hstep
    cases hstep
    exact ⟨rfl, rfl, rfl, rfl, rfl, ⟨_, rfl, rfl, rfl, rfl⟩⟩

/-- C8 (witness): a keep-alive probe arriving at the fresh window-2
receiver. -/
theorem recv_keepalive_acks_only_witness :
    ∃ out, recvStep sampleRecv { samplePacket 0 0 with KeepAlive := true }
        = some out ∧
      out.1.NextFrameExpected = sampleRecv.NextFrameExpected ∧
      out.1.Rxq = sampleRecv.Rxq ∧
      out.1.RcvdButNotConsumed = sampleRecv.RcvdButNotConsumed ∧
      out.1.ReadyForDelivery = sampleRecv.ReadyForDelivery ∧
      out.1.RecvHistory = sampleRecv.RecvHistory ∧
      ∃ a, out.2.2 = some a ∧ a.AckOnly = true ∧
        a.Dest = { samplePacket 0 0 with KeepAlive := true }.From ∧
        a.AckNum = sampleRecv.NextFrameExpected - 1 := by
  have hs : (recvStep sampleRecv
      { samplePacket 0 0 with KeepAlive := true }).isSome = true := by decide
  exact ⟨_, (Option.some_get hs).symm,
    recv_keepalive_acks_only sampleRecv _ _ rfl rfl (Option.some_get hs).symm⟩

/-! ## C5: consumer handoff bookkeeping -/

/-- First packet of the C5 failing batch: seq 0, two data bytes,
`CumulBytesTransmitted = 2`. -/
def c5pack0 : Packet :=
  { emptyPacket with
      From := [65], Dest := [66], SeqNum := 0,
      CumulBytesTransmitted := 2, Data := [10, 11] }

/-- Second packet of the C5 failing batch: seq 1, three data bytes,
`CumulBytesTransmitted = 5`. -/
def c5pack1 : Packet :=
  { emptyPacket with
      From := [65], Dest := [66], SeqNum := 1,
      CumulBytesTransmitted := 5, Data := [20, 21, 22] }

/-- C5 (code evaluation at the failing input): a fresh window-2 receiver
receives seqs 0 and 1 (cumulative byte totals 2 and 5) and hands the
two-packet batch to the consumer.  Both delivered sequence numbers are
removed from `RcvdButNotConsumed` and `LastMsgConsumed` becomes the last
batch element's seq (1), as the claim says; but `LastByteConsumed`
becomes `0` — `Seq[0].CumulBytesTransmitted − len(Seq[0].Data)`, computed
from the FIRST batch element — not the highest byte index consumed so
far, which is the last element's `CumulBytesTransmitted − 1 = 4`. -/
theorem deliver_lastByteConsumed_from_first :
    ∃ r, runRecvEvents (NewRecvState 2 100 [66])
        [RecvEvent.arrive c5pack0, RecvEvent.arrive c5pack1,
          RecvEvent.deliver] = some r ∧
      r.LastMsgConsumed = 1 ∧
      seqnoMapLookup r.RcvdButNotConsumed 0 = none ∧
      seqnoMapLookup r.RcvdButNotConsumed 1 = none ∧
      r.LastByteConsumed = 0 ∧
      ¬ r.LastByteConsumed = 5 - 1 := by
  refine ⟨_, rfl, ?_, ?_, ?_, ?_, ?_⟩ <;> decide

/-! ## C6: the monotonicity panics -/

theorem goMod_toNat_lt (a W : Int) (ha : 0 ≤ a) (hW : 0 < W) :
    (goMod a W).toNat < W.toNat := by
  have h1 : goMod a W = a % W := Int.tmod_eq_emod ha (by omega)
  have h2 : 0 ≤ a % W := Int.emod_nonneg a (by omega)
  have h3 : a % W < W := Int.emod_lt_of_pos a hW
  omega

theorem goMod_window_inj (W n s : Int) (hW : 0 < W) (h0 : 0 ≤ n)
    (hs : n ≤ s) (hs2 : s ≤ n + W - 1)
    (heq : (goMod s W).toNat = (goMod n W).toNat) : s = n := by
  have hgs : goMod s W = s % W := Int.tmod_eq_emod (by omega) (by omega)
  have hgn : goMod n W = n % W := Int.tmod_eq_emod h0 (by omega)
  have h2 : 0 ≤ s % W := Int.emod_nonneg s (by omega)
  have h2n : 0 ≤ n % W := Int.emod_nonneg n (by omega)
  have heq2 : s % W = n % W := by omega
  have hsub : (s - n) % W = 0 := by
    rw [Int.sub_emod, heq2]
    simp
  have hlt : s - n < W := by omega
  have hge : 0 ≤ s - n := by omega
  have := Int.emod_eq_of_lt hge hlt
  omega

/-- Clearing a received slot decreases the received count by one. -/
theorem countP_set_cleared (l : List RxqSlot) (i : Nat) (hi : i < l.length)
    (hrec : (l.getD i default).Received = true) :
    (l.set i ⟨false, none⟩).countP (·.Received) + 1
      = l.countP (·.Received) := by
  induction l generalizing i with
  | nil => simp at hi
  | cons hd tl ih =>
    cases i with
    | zero =>
      simp only [List.getD_cons_zero] at hrec
      simp [List.countP_cons, hrec]
    | succ j =>
      simp only [List.getD_cons_succ] at hrec
      have hj : j < tl.length := by simpa using hi
      have := ih j hj hrec
      simp only [List.set_cons_succ, List.countP_cons]
      omega

/-- The receiver invariant maintained by the receive loop: the window size
is positive and matches the ring length, `NextFrameExpected` counts the
delivered history, the history is the identity sequence `0, 1, 2, …`, and
every received ring slot holds a packet for the unique in-window sequence
congruent to its index. -/
def RecvInv (r : RecvState) : Prop :=
  0 < r.RecvWindowSize ∧
  (r.Rxq.length : Int) = r.RecvWindowSize ∧
  0 ≤ r.NextFrameExpected ∧
  r.NextFrameExpected = (r.RecvHistory.length : Int) ∧
  (∀ i, i < r.RecvHistory.length →
    (r.RecvHistory.getD i emptyPacket).SeqNum = (i : Int)) ∧
  (∀ i, i < r.Rxq.length → (r.Rxq.getD i default).Received = true →
    ∃ p, (r.Rxq.getD i default).Pack = some p ∧
      r.NextFrameExpected ≤ p.SeqNum ∧
      p.SeqNum ≤ r.NextFrameExpected + r.RecvWindowSize - 1 ∧
      (goMod p.SeqNum r.RecvWindowSize).toNat = i)

/-- A fresh receiver satisfies the invariant. -/
theorem recvInv_new (W Wb : Int) (inbox : ByteStr) (hW : 0 < W) :
    RecvInv (NewRecvState W Wb inbox) := by
  refine ⟨hW, ?_, le_refl _, rfl, ?_, ?_⟩
  · simp [NewRecvState]
    omega
  · intro i hi
    simp [NewRecvState] at hi
  · intro i hi hrec
    simp only [NewRecvState] at hi hrec
    rw [List.getD_eq_getElem?_getD, List.getElem?_replicate,
      if_pos (by simpa using hi)] at hrec
    simp at hrec



/-- Under the invariant, a received slot at the walk position holds the
packet for exactly `NextFrameExpected`. -/
theorem curSlot_seq (r : RecvState) (hinv : RecvInv r)
    (hrec : (curSlot r).Received = true) :
    ∃ p, (curSlot r).Pack = some p ∧ p.SeqNum = r.NextFrameExpected := by
  obtain ⟨hW, hlen, hnfe, _, _, hslots⟩ := hinv
  have hidx : slotIdx r < r.Rxq.length := by
    have := goMod_toNat_lt r.NextFrameExpected r.RecvWindowSize hnfe hW
    unfold slotIdx
    omega
  obtain ⟨p, hpack, hlo, hhi, hcong⟩ := hslots (slotIdx r) hidx hrec
  refine ⟨p, hpack, ?_⟩
  exact goMod_window_inj r.RecvWindowSize r.NextFrameExpected p.SeqNum hW hnfe
    hlo hhi hcong

/-- One iteration of the delivery walk preserves the invariant. -/
theorem drain_one_inv (r : RecvState) (hinv : RecvInv r)
    (hrec : (curSlot r).Received = true) :
    RecvInv
      { r with
          ReadyForDelivery :=
            r.ReadyForDelivery ++ [(curSlot r).Pack.getD emptyPacket]
          RecvHistory := r.RecvHistory ++ [(curSlot r).Pack.getD emptyPacket]
          Rxq := r.Rxq.set (slotIdx r) ⟨false, none⟩
          NextFrameExpected := r.NextFrameExpected + 1 } := by
  obtain ⟨p, hpack, hpseq⟩ := curSlot_seq r hinv hrec
  obtain ⟨hW, hlen, hnfe, hcount, hhist, hslots⟩ := hinv
  have hidx : slotIdx r < r.Rxq.length := by
    have := goMod_toNat_lt r.NextFrameExpected r.RecvWindowSize hnfe hW
    unfold slotIdx
    omega
  unfold RecvInv
  dsimp only
  refine ⟨hW, by simpa using hlen, by omega, ?_, ?_, ?_⟩
  · simp only [List.length_append, List.length_cons, List.length_nil]
    push_cast
    omega
  · intro i hi
    simp only [List.length_append, List.length_cons, List.length_nil] at hi
    by_cases hilt : i < r.RecvHistory.length
    · rw [List.getD_eq_getElem?_getD, List.getElem?_append_left hilt,
        ← List.getD_eq_getElem?_getD]
      exact hhist i hilt
    · have hieq : i = r.RecvHistory.length := by omega
      rw [List.getD_eq_getElem?_getD, List.getElem?_append_right (by omega),
        ← List.getD_eq_getElem?_getD]
      rw [hieq]
      simp only [Nat.sub_self, List.getD_cons_zero]
      rw [hpack]
      simp only [Option.getD_some]
      omega
  · intro i hi hreci
    simp only [List.length_set] at hi
    by_cases hieq : i = slotIdx r
    · rw [hieq, List.getD_eq_getElem?_getD, List.getElem?_set_self (by omega)] at hreci
      simp at hreci
    · rw [List.getD_eq_getElem?_getD, List.getElem?_set_ne (by omega)] at hreci
      rw [← List.getD_eq_getElem?_getD] at hreci
      obtain ⟨q, hq, hqlo, hqhi, hqcong⟩ := hslots i hi hreci
      refine ⟨q, ?_, ?_, by omega, hqcong⟩
      · rw [List.getD_eq_getElem?_getD, List.getElem?_set_ne (by omega),
          ← List.getD_eq_getElem?_getD]
        exact hq
      · have hqne : q.SeqNum ≠ r.NextFrameExpected := by
          intro habs
          apply hieq
          rw [← hqcong, habs]
          rfl
        omega



theorem deliverLoop_RecvWindowSize (fuel : Nat) (r : RecvState) :
    (deliverLoop fuel r).RecvWindowSize = r.RecvWindowSize := by
  induction fuel generalizing r with
  | zero => rfl
  | succ n ih => unfold deliverLoop; split; exacts [ih _, rfl]

theorem deliverLoop_inv (fuel : Nat) (r : RecvState) (hinv : RecvInv r) :
    RecvInv (deliverLoop fuel r) := by
  induction fuel generalizing r with
  | zero => exact hinv
  | succ n ih =>
    unfold deliverLoop
    split
    · exact ih _ (drain_one_inv r hinv (by assumption))
    · exact hinv

/-- The delivery walk never sets a slot: each slot is unchanged or
cleared. -/
theorem deliverLoop_slots (fuel : Nat) (r : RecvState) (i : Nat) :
    (deliverLoop fuel r).Rxq.getD i default = r.Rxq.getD i default ∨
    (deliverLoop fuel r).Rxq.getD i default = ⟨false, none⟩ := by
  induction fuel generalizing r with
  | zero => exact Or.inl rfl
  | succ n ih =>
    unfold deliverLoop
    split
    · rcases ih ({ r with
          ReadyForDelivery :=
            r.ReadyForDelivery ++ [(curSlot r).Pack.getD emptyPacket]
          RecvHistory := r.RecvHistory ++ [(curSlot r).Pack.getD emptyPacket]
          Rxq := r.Rxq.set (slotIdx r) ⟨false, none⟩
          NextFrameExpected := r.NextFrameExpected + 1 }) with h | h
      · rw [h]
        dsimp only
        by_cases hie : i = slotIdx r
        · right
          rw [hie]
          rcases Nat.lt_or_ge (slotIdx r) r.Rxq.length with hlt | hge
          · rw [List.getD_eq_getElem?_getD, List.getElem?_set_self hlt]
            rfl
          · rw [List.getD_eq_getElem?_getD,
              List.getElem?_eq_none_iff.mpr (by simpa using hge)]
            rfl
        · rw [List.getD_eq_getElem?_getD, List.getElem?_set_ne (fun hh => hie hh.symm),
            ← List.getD_eq_getElem?_getD]
          exact Or.inl rfl
      · exact Or.inr h
    · exact Or.inl rfl



theorem deliverLoop_run (fuel : Nat) (r : RecvState) (hinv : RecvInv r)
    (hfuel : r.Rxq.countP (·.Received) < fuel) :
    ∃ run : List Packet,
      (deliverLoop fuel r).RecvHistory = r.RecvHistory ++ run ∧
      (deliverLoop fuel r).ReadyForDelivery = r.ReadyForDelivery ++ run ∧
      (deliverLoop fuel r).NextFrameExpected
        = r.NextFrameExpected + (run.length : Int) ∧
      (∀ j, j < run.length →
        (run.getD j emptyPacket).SeqNum = r.NextFrameExpected + (j : Int)) ∧
      ((curSlot r).Received = true → run ≠ []) ∧
      (∀ s : Int, r.NextFrameExpected ≤ s →
        s < r.NextFrameExpected + (run.length : Int) →
        (deliverLoop fuel r).Rxq.getD (goMod s r.RecvWindowSize).toNat default
          = ⟨false, none⟩) ∧
      (curSlot (deliverLoop fuel r)).Received = false := by
  induction fuel generalizing r with
  | zero => omega
  | succ n ih =>
    have hidx : slotIdx r < r.Rxq.length := by
      have := goMod_toNat_lt r.NextFrameExpected r.RecvWindowSize
        hinv.2.2.1 hinv.1
      have hlen := hinv.2.1
      unfold slotIdx
      omega
    unfold deliverLoop
    by_cases h : (curSlot r).Received = true
    · rw [if_pos h]
      set r1 : RecvState :=
        { r with
            ReadyForDelivery :=
              r.ReadyForDelivery ++ [(curSlot r).Pack.getD emptyPacket]
            RecvHistory := r.RecvHistory ++ [(curSlot r).Pack.getD emptyPacket]
            Rxq := r.Rxq.set (slotIdx r) ⟨false, none⟩
            NextFrameExpected := r.NextFrameExpected + 1 } with hr1
      have hinv1 : RecvInv r1 := by
        rw [hr1]
        exact drain_one_inv r hinv h
      have hcnt := countP_set_cleared r.Rxq (slotIdx r) hidx h
      have hfuel1 : r1.Rxq.countP (·.Received) < n := by
        rw [hr1]
        dsimp only
        omega
      obtain ⟨run1, hh, hrd, hnfe2, hid, hne, hclear, hfinal⟩ :=
        ih r1 hinv1 hfuel1
      obtain ⟨q, hq, hqseq⟩ := curSlot_seq r hinv h
      have hr1hist : r1.RecvHistory
          = r.RecvHistory ++ [(curSlot r).Pack.getD emptyPacket] := by
        rw [hr1]
      have hr1rd : r1.ReadyForDelivery
          = r.ReadyForDelivery ++ [(curSlot r).Pack.getD emptyPacket] := by
        rw [hr1]
      have hr1nfe : r1.NextFrameExpected = r.NextFrameExpected + 1 := by
        rw [hr1]
      have hr1W : r1.RecvWindowSize = r.RecvWindowSize := by
        rw [hr1]
      refine ⟨(curSlot r).Pack.getD emptyPacket :: run1,
        ?_, ?_, ?_, ?_, ?_, ?_, ?_⟩
      · rw [hh, hr1hist, List.append_assoc, List.singleton_append]
      · rw [hrd, hr1rd, List.append_assoc, List.singleton_append]
      · rw [hnfe2, hr1nfe]
        simp only [List.length_cons]
        omega
      · intro j hj
        cases j with
        | zero =>
          simp only [List.getD_cons_zero]
          rw [hq]
          simp only [Option.getD_some]
          omega
        | succ k =>
          simp only [List.getD_cons_succ]
          have hk : k < run1.length := by simpa using hj
          have := hid k hk
          rw [this, hr1nfe]
          omega
      · intro _
        exact List.cons_ne_nil _ _
      · intro s hs1 hs2
        simp only [List.length_cons] at hs2
        by_cases hseq : s = r.NextFrameExpected
        · have hidxeq : (goMod s r.RecvWindowSize).toNat = slotIdx r := by
            rw [hseq]
            rfl
          rcases deliverLoop_slots n r1 (slotIdx r) with hslot | hslot
          · rw [hidxeq, hslot, hr1]
            dsimp only
            rw [List.getD_eq_getElem?_getD, List.getElem?_set_self hidx]
            rfl
          · rw [hidxeq, hslot]
        · have hres := hclear s (by rw [hr1nfe]; omega)
            (by rw [hr1nfe]; omega)
          rw [hr1W] at hres
          exact hres
      · exact hfinal
    · rw [if_neg h]
      refine ⟨[], by simp, by simp, by simp, ?_, ?_, ?_, ?_⟩
      · intro j hj
        simp at hj
      · intro hrec
        exact absurd hrec h
      · intro s hs1 hs2
        simp only [List.length_nil, Nat.cast_zero, add_zero] at hs2
        omega
      · simpa using h



/-- Invariance is a property of four fields only. -/
theorem recvInv_congr (r r2 : RecvState) (hinv : RecvInv r)
    (hW : r2.RecvWindowSize = r.RecvWindowSize)
    (hq : r2.Rxq = r.Rxq) (hn : r2.NextFrameExpected = r.NextFrameExpected)
    (hh : r2.RecvHistory = r.RecvHistory) : RecvInv r2 := by
  unfold RecvInv at *
  rw [hW, hq, hn, hh]
  exact hinv

/-- Storing an in-window packet in its ring slot preserves the invariant. -/
theorem recvInv_set_slot (r : RecvState) (p : Packet) (hinv : RecvInv r)
    (hw : InWindow p.SeqNum r.NextFrameExpected
      (r.NextFrameExpected + r.RecvWindowSize - 1) = true) :
    RecvInv { r with
      Rxq := r.Rxq.set (goMod p.SeqNum r.RecvWindowSize).toNat
        ⟨true, some p⟩ } := by
  have hbounds : r.NextFrameExpected ≤ p.SeqNum ∧
      p.SeqNum ≤ r.NextFrameExpected + r.RecvWindowSize - 1 := by
    unfold InWindow at hw
    split at hw
    · exact Bool.noConfusion hw
    · split at hw
      · exact Bool.noConfusion hw
      · omega
  obtain ⟨hW, hlen, hnfe, hcount, hhist, hslots⟩ := hinv
  unfold RecvInv
  dsimp only
  refine ⟨hW, by simpa using hlen, hnfe, hcount, hhist, ?_⟩
  intro i hi hrec
  simp only [List.length_set] at hi
  by_cases hie : i = (goMod p.SeqNum r.RecvWindowSize).toNat
  · refine ⟨p, ?_, hbounds.1, hbounds.2, hie.symm⟩
    rw [hie, List.getD_eq_getElem?_getD, List.getElem?_set_self (by omega)]
    rfl
  · rw [List.getD_eq_getElem?_getD,
      List.getElem?_set_ne (fun hh => hie hh.symm),
      ← List.getD_eq_getElem?_getD] at hrec
    obtain ⟨q, hq, h1, h2, h3⟩ := hslots i hi hrec
    refine ⟨q, ?_, h1, h2, h3⟩
    rw [List.getD_eq_getElem?_getD,
      List.getElem?_set_ne (fun hh => hie hh.symm),
      ← List.getD_eq_getElem?_getD]
    exact hq



/-- A successful receive step preserves the invariant. -/
theorem recvStep_inv (r : RecvState) (p : Packet)
    (out : RecvState × AckStatus × Option Packet)
    (hinv : RecvInv r) (hstep : recvStep r p = some out) : RecvInv out.1 := by
  unfold recvStep at hstep
  cases hm : updateCumulMarks r.LargestSeqnoRcvd r.MaxCumulBytesTrans p with
  | none => rw [hm] at hstep; exact Option.noConfusion hstep
  | some q =>
    obtain ⟨lg, mx⟩ := q
    rw [hm] at hstep
    dsimp only at hstep
    split at hstep
    · cases hstep; exact hinv
    · split at hstep
      · cases hstep; exact hinv
      · split at hstep
        · -- p.SeqNum ≥ NFE: RcvdButNotConsumed inserted (irrelevant)
          split at hstep
          · rename_i hwin
            split at hstep
            · -- in-order: slot set, then delivery walk
              cases hstep
              exact deliverLoop_inv _ _ (recvInv_set_slot r p hinv hwin)
            · cases hstep
              exact recvInv_set_slot r p hinv (by assumption)
          · cases hstep; exact hinv
        · split at hstep
          · rename_i hwin
            split at hstep
            · cases hstep
              exact deliverLoop_inv _ _ (recvInv_set_slot r p hinv hwin)
            · cases hstep
              exact recvInv_set_slot r p hinv (by assumption)
          · cases hstep; exact hinv

/-- The per-batch bookkeeping of the consumer handoff leaves the four
invariant fields untouched. -/
theorem foldl_consume_fields (batch : List Packet) (r : RecvState) :
    (batch.foldl
      (fun acc p =>
        { acc with
            RcvdButNotConsumed := seqnoMapRemove acc.RcvdButNotConsumed p.SeqNum
            LastMsgConsumed := p.SeqNum }) r).RecvWindowSize
        = r.RecvWindowSize ∧
    (batch.foldl
      (fun acc p =>
        { acc with
            RcvdButNotConsumed := seqnoMapRemove acc.RcvdButNotConsumed p.SeqNum
            LastMsgConsumed := p.SeqNum }) r).Rxq = r.Rxq ∧
    (batch.foldl
      (fun acc p =>
        { acc with
            RcvdButNotConsumed := seqnoMapRemove acc.RcvdButNotConsumed p.SeqNum
            LastMsgConsumed := p.SeqNum }) r).NextFrameExpected
        = r.NextFrameExpected ∧
    (batch.foldl
      (fun acc p =>
        { acc with
            RcvdButNotConsumed := seqnoMapRemove acc.RcvdButNotConsumed p.SeqNum
            LastMsgConsumed := p.SeqNum }) r).RecvHistory = r.RecvHistory := by
  induction batch generalizing r with
  | nil => exact ⟨rfl, rfl, rfl, rfl⟩
  | cons hd tl ih =>
    simp only [List.foldl_cons]
    exact ih _

/-- The consumer handoff preserves the invariant. -/
theorem deliverToConsumer_inv (r : RecvState) (hinv : RecvInv r) :
    RecvInv (deliverToConsumer r).1 := by
  unfold deliverToConsumer
  split
  · exact hinv
  · dsimp only
    obtain ⟨h1, h2, h3, h4⟩ := foldl_consume_fields r.ReadyForDelivery r
    exact recvInv_congr r _ hinv h1 h2 h3 h4

/-- Any run of receive-loop events preserves the invariant. -/
theorem runRecvEvents_inv (events : List RecvEvent) (r rf : RecvState)
    (hinv : RecvInv r) (hrun : runRecvEvents r events = some rf) :
    RecvInv rf := by
  induction events generalizing r with
  | nil =>
    cases hrun
    exact hinv
  | cons e tl ih =>
    cases e with
    | arrive p =>
      unfold runRecvEvents at hrun
      cases hs : recvStep r p with
      | none => rw [hs] at hrun; exact Option.noConfusion hrun
      | some o =>
        obtain ⟨r1, as1, ap1⟩ := o
        rw [hs] at hrun
        exact ih r1 (recvStep_inv r p (r1, as1, ap1) hinv hs) hrun
    | deliver =>
      unfold runRecvEvents at hrun
      exact ih _ (deliverToConsumer_inv r hinv) hrun



theorem deliverLoop_Inbox (fuel : Nat) (r : RecvState) :
    (deliverLoop fuel r).Inbox = r.Inbox := by
  induction fuel generalizing r with
  | zero => rfl
  | succ n ih => unfold deliverLoop; split; exacts [ih _, rfl]

/-- C1: from a fresh receiver, for every sequence of receive-loop events
(arbitrary arriving packets — any loss, reordering or duplication pattern
— interleaved with consumer handoffs) that does not hit a monotonicity
panic, the delivered history is exactly `0, 1, 2, …`: the packet at index
`i` of `RecvHistory` carries `SeqNum = i`, and `NextFrameExpected` equals
the length of `RecvHistory`. -/
theorem recvHistory_identity (W Wb : Int) (inbox : ByteStr)
    (events : List RecvEvent) (rf : RecvState) (hW : 0 < W)
    (hrun : runRecvEvents (NewRecvState W Wb inbox) events = some rf) :
    rf.NextFrameExpected = (rf.RecvHistory.length : Int) ∧
    ∀ i, i < rf.RecvHistory.length →
      (rf.RecvHistory.getD i emptyPacket).SeqNum = (i : Int) := by
  have hinv := runRecvEvents_inv events _ rf (recvInv_new W Wb inbox hW) hrun
  exact ⟨hinv.2.2.2.1, hinv.2.2.2.2.1⟩

/-- C2: when a data packet arrives whose `SeqNum` equals
`NextFrameExpected` (and hence lies within the receive window), the
receiver appends a non-empty contiguous run of packets with consecutive
sequence numbers `NextFrameExpected, NextFrameExpected+1, …` to both
`ReadyForDelivery` and `RecvHistory`, clears each visited slot
(`Received = false`, `Pack = nil`), advances `NextFrameExpected` past the
run to the first sequence whose slot is not received, and emits exactly
one ack-only packet to the sender with `AckNum = NextFrameExpected − 1`
(the new value). -/
theorem recv_inorder_walk (r : RecvState) (pack : Packet)
    (out : RecvState × AckStatus × Option Packet)
    (hinv : RecvInv r)
    (hAck : pack.AckOnly = false) (hKa : pack.KeepAlive = false)
    (hSeq : pack.SeqNum = r.NextFrameExpected)
    (hstep : recvStep r pack = some out) :
    ∃ run : List Packet, run ≠ [] ∧
      out.1.RecvHistory = r.RecvHistory ++ run ∧
      out.1.ReadyForDelivery = r.ReadyForDelivery ++ run ∧
      out.1.NextFrameExpected = r.NextFrameExpected + (run.length : Int) ∧
      (∀ j, j < run.length →
        (run.getD j emptyPacket).SeqNum = r.NextFrameExpected + (j : Int)) ∧
      (∀ s : Int, r.NextFrameExpected ≤ s → s < out.1.NextFrameExpected →
        out.1.Rxq.getD (goMod s r.RecvWindowSize).toNat default
          = ⟨false, none⟩) ∧
      (out.1.Rxq.getD (goMod out.1.NextFrameExpected r.RecvWindowSize).toNat
        default).Received = false ∧
      ∃ a, out.2.2 = some a ∧ a.AckOnly = true ∧ a.Dest = pack.From ∧
        a.From = r.Inbox ∧ a.AckNum = out.1.NextFrameExpected - 1 := by
  have hW := hinv.1
  have hwin : InWindow pack.SeqNum r.NextFrameExpected
      (r.NextFrameExpected + r.RecvWindowSize - 1) = true := by
    unfold InWindow
    rw [if_neg (by omega), if_neg (by omega)]
  unfold recvStep at hstep
  cases hm : updateCumulMarks r.LargestSeqnoRcvd r.MaxCumulBytesTrans pack with
  | none => rw [hm] at hstep; exact Option.noConfusion hstep
  | some q =>
    obtain ⟨lg, mx⟩ := q
    rw [hm] at hstep
    simp only [hAck, hKa, Bool.false_eq_true, if_false,
      RecvState.UpdateFlowControl, RecvState.sendAck] at hstep
    have hge : pack.SeqNum ≥ r.NextFrameExpected := by omega
    simp only [if_pos hge] at hstep
    simp only [if_pos hSeq, if_pos hwin] at hstep
    cases hstep
    have hnfe0 := hinv.2.2.1
    have hlen := hinv.2.1
    have hidxlt : (goMod pack.SeqNum r.RecvWindowSize).toNat < r.Rxq.length := by
      have := goMod_toNat_lt pack.SeqNum r.RecvWindowSize (by omega) hW
      omega
    have hinvL : RecvInv
        { r with
            Rxq := r.Rxq.set (goMod pack.SeqNum r.RecvWindowSize).toNat
              ⟨true, some pack⟩
            LargestSeqnoRcvd := lg
            MaxCumulBytesTrans := mx
            LastAvailReaderBytesCap :=
              r.RecvWindowSizeBytes - (mx - (r.LastByteConsumed + 1))
            LastAvailReaderMsgCap :=
              r.RecvWindowSize - (lg - r.LastMsgConsumed)
            RcvdButNotConsumed :=
              seqnoMapInsert r.RcvdButNotConsumed pack.SeqNum pack
            flowCt :=
              ⟨r.RecvWindowSize - (lg - r.LastMsgConsumed),
                r.RecvWindowSizeBytes - (mx - (r.LastByteConsumed + 1))⟩ } :=
      recvInv_congr _ _ (recvInv_set_slot r pack hinv hwin) rfl rfl rfl rfl
    obtain ⟨run, hh, hrd, hnfe2, hid, hne, hclear, hfinal⟩ :=
      deliverLoop_run
        (List.countP (fun x => x.Received)
          (r.Rxq.set (goMod pack.SeqNum r.RecvWindowSize).toNat
            ⟨true, some pack⟩) + 1)
        _ hinvL (Nat.lt_succ_self _)
    have hcur : (curSlot
        { r with
            Rxq := r.Rxq.set (goMod pack.SeqNum r.RecvWindowSize).toNat
              ⟨true, some pack⟩
            LargestSeqnoRcvd := lg
            MaxCumulBytesTrans := mx
            LastAvailReaderBytesCap :=
              r.RecvWindowSizeBytes - (mx - (r.LastByteConsumed + 1))
            LastAvailReaderMsgCap :=
              r.RecvWindowSize - (lg - r.LastMsgConsumed)
            RcvdButNotConsumed :=
              seqnoMapInsert r.RcvdButNotConsumed pack.SeqNum pack
            flowCt :=
              ⟨r.RecvWindowSize - (lg - r.LastMsgConsumed),
                r.RecvWindowSizeBytes - (mx - (r.LastByteConsumed + 1))⟩
            }).Received = true := by
      show ((r.Rxq.set (goMod pack.SeqNum r.RecvWindowSize).toNat
          ⟨true, some pack⟩).getD
        (goMod r.NextFrameExpected r.RecvWindowSize).toNat default).Received
          = true
      rw [← hSeq, List.getD_eq_getElem?_getD, List.getElem?_set_self hidxlt]
      rfl
    refine ⟨run, hne hcur, hh, hrd, hnfe2, hid, ?_, ?_, ?_⟩
    · intro s h1 h2
      exact hclear s h1 (by rw [← hnfe2]; exact h2)
    · have hW5 := deliverLoop_RecvWindowSize
        (List.countP (fun x => x.Received)
          (r.Rxq.set (goMod pack.SeqNum r.RecvWindowSize).toNat
            ⟨true, some pack⟩) + 1)
        { r with
            Rxq := r.Rxq.set (goMod pack.SeqNum r.RecvWindowSize).toNat
              ⟨true, some pack⟩
            LargestSeqnoRcvd := lg
            MaxCumulBytesTrans := mx
            LastAvailReaderBytesCap :=
              r.RecvWindowSizeBytes - (mx - (r.LastByteConsumed + 1))
            LastAvailReaderMsgCap :=
              r.RecvWindowSize - (lg - r.LastMsgConsumed)
            RcvdButNotConsumed :=
              seqnoMapInsert r.RcvdButNotConsumed pack.SeqNum pack
            flowCt :=
              ⟨r.RecvWindowSize - (lg - r.LastMsgConsumed),
                r.RecvWindowSizeBytes - (mx - (r.LastByteConsumed + 1))⟩ }
      have hfin2 := hfinal
      unfold curSlot slotIdx at hfin2
      rw [hW5] at hfin2
      exact hfin2
    · refine ⟨_, rfl, rfl, rfl, ?_, rfl⟩
      exact deliverLoop_Inbox _ _



/-- C1 (witness): two in-order arrivals and one consumer handoff at a
fresh window-2 receiver. -/
theorem recvHistory_identity_witness :
    (0 : Int) < 2 ∧
    ∃ rf, runRecvEvents (NewRecvState 2 100 [66])
        [RecvEvent.arrive c5pack0, RecvEvent.arrive c5pack1,
          RecvEvent.deliver] = some rf ∧
      rf.NextFrameExpected = (rf.RecvHistory.length : Int) ∧
      ∀ i, i < rf.RecvHistory.length →
        (rf.RecvHistory.getD i emptyPacket).SeqNum = (i : Int) := by
  have hs : (runRecvEvents (NewRecvState 2 100 [66])
      [RecvEvent.arrive c5pack0, RecvEvent.arrive c5pack1,
        RecvEvent.deliver]).isSome = true := by decide
  exact ⟨by decide, _, (Option.some_get hs).symm,
    recvHistory_identity 2 100 [66] _ _ (by decide) (Option.some_get hs).symm⟩

/-- C2 (witness): the first in-order packet arriving at a fresh window-2
receiver. -/
theorem recv_inorder_walk_witness :
    ∃ out, recvStep sampleRecv (samplePacket 0 2) = some out ∧
      ∃ run : List Packet, run ≠ [] ∧
        out.1.RecvHistory = sampleRecv.RecvHistory ++ run ∧
        out.1.ReadyForDelivery = sampleRecv.ReadyForDelivery ++ run ∧
        out.1.NextFrameExpected
          = sampleRecv.NextFrameExpected + (run.length : Int) ∧
        (∀ j, j < run.length →
          (run.getD j emptyPacket).SeqNum
            = sampleRecv.NextFrameExpected + (j : Int)) ∧
        (∀ s : Int, sampleRecv.NextFrameExpected ≤ s →
          s < out.1.NextFrameExpected →
          out.1.Rxq.getD (goMod s sampleRecv.RecvWindowSize).toNat default
            = ⟨false, none⟩) ∧
        (out.1.Rxq.getD
          (goMod out.1.NextFrameExpected sampleRecv.RecvWindowSize).toNat
          default).Received = false ∧
        ∃ a, out.2.2 = some a ∧ a.AckOnly = true ∧
          a.Dest = (samplePacket 0 2).From ∧
          a.From = sampleRecv.Inbox ∧
          a.AckNum = out.1.NextFrameExpected - 1 := by
  have hs : (recvStep sampleRecv (samplePacket 0 2)).isSome = true := by decide
  exact ⟨_, (Option.some_get hs).symm,
    recv_inorder_walk sampleRecv (samplePacket 0 2) _
      (recvInv_new 2 100 [66] (by decide)) rfl rfl rfl
      (Option.some_get hs).symm⟩

end Swp
